import Mathlib

/-!
Verification development for the engram tiered-memory core.

This file embeds, as executable Lean definitions, the parts of the source that
the frozen claims are about:

* the short-term store `MemoryStmService` (packages/memory-stm, here `stmCreate`,
  `stmFindById`, `stmUpdate`, `stmDelete`, `stmGetTtl`, `stmExtendTtl`) over an
  explicit cache state;
* the long-term store `MemoryLtmService` (packages/memory-ltm, here `ltmCreate`,
  `ltmGet`, `ltmUpdate`, `ltmDelete`, `ltmList`, `ltmPromote`);
* the coordinator `MemoryService` (apps/mcp-server memory.service, here
  `listMemories`, `updateMemory`, `deleteMemory`, and the outcome-level control
  flows `getMemoryFlow` / `updateMemoryFlow`);
* the zod validation schemas (memory-stm/types and the database package) as
  boolean validity predicates plus the parse-time defaults they apply;
* the cache key builder `StmKeyBuilder`, modelled once over `String` (as used by
  the store) and once over character lists (for structural reasoning about
  splitting and glob patterns).

Modelling conventions: timestamps are natural numbers (milliseconds), TTLs are
integers (seconds); the cache is an association list from keys to stored
entries, where `rset` overwrites and `rdel` removes a key (the cache is a map,
so all occurrences of a key are replaced/removed); JavaScript `undefined` for
an optional field is `Option.none`.  The model describes executions in which
the underlying cache and database transports succeed; the one transport
failure the claims mention (the best-effort cache delete inside promotion, and
an arbitrary short-term failure during coordinator reads) is injected as an
explicit parameter/outcome.
-/

deriving instance DecidableEq for Except

namespace Engram

/-- Metadata maps (`Record<string, unknown>` in the source) are carried through
all operations unchanged, so we model them as finite string-keyed maps. -/
abbrev MetaMap := List (String × String)

/-- A short-term memory entry as serialized into the cache
(`StmMemory` in memory-stm/types). -/
structure StmMemory where
  id : String
  userId : String
  content : String
  metadata : Option MetaMap
  tags : List String
  createdAt : Nat
  updatedAt : Nat
  expiresAt : Nat
  ttl : Int
  deriving Repr, DecidableEq

/-- A value stored in the cache: the serialized entry plus the physical expiry
instant carried by the key's TTL (`none` models a key without a TTL). -/
structure StoredVal where
  mem : StmMemory
  physExp : Option Nat
  deriving Repr, DecidableEq

/-- The cache tier state: an association list from cache keys to stored values. -/
abbrev RedisState := List (String × StoredVal)

/-- Cache read (`RedisService.get`). -/
def rget (st : RedisState) (k : String) : Option StoredVal :=
  (st.find? (fun p => p.1 == k)).map (·.2)

/-- Cache write with TTL (`RedisService.set` with a ttl argument): overwrites
the key. -/
def rset (st : RedisState) (k : String) (v : StoredVal) : RedisState :=
  st.filter (fun p => p.1 != k) ++ [(k, v)]

/-- Cache delete (`RedisService.del`): removes the key, returning how many
keys were removed. -/
def rdel (st : RedisState) (k : String) : Nat × RedisState :=
  ((st.filter (fun p => p.1 == k)).length, st.filter (fun p => p.1 != k))

/-- Remaining TTL in seconds (`RedisService.ttl`): `-2` if the key is absent,
`-1` if it exists without a TTL, otherwise the remaining lifetime. -/
def rttl (st : RedisState) (now : Nat) (k : String) : Int :=
  match rget st k with
  | none => -2
  | some v =>
    match v.physExp with
    | none => -1
    | some e => ((e : Int) - (now : Int)) / 1000

/-- The error surface of `MemoryStmService`: `StmMemoryNotFoundError`,
`StmMemoryExpiredError`, `StmTtlValidationError`, a zod schema rejection
(`ZodError`), and an underlying cache/transport failure.  The state-level
operations below model executions with a healthy transport and so never
produce `storeFailure`; it exists because the coordinator's control flow
(claim C5) is quantified over every failure the service can surface. -/
inductive StmError
  | notFound
  | expired
  | ttlValidation
  | schemaInvalid
  | storeFailure
  deriving Repr, DecidableEq

/-! ### Zod schema model (memory-stm/types and the database package)

zod semantics used: `.parse` throws on the first invalid field (modelled as a
single `schemaInvalid` outcome); `.optional()` lets `undefined` through
untouched; `.default(v)` replaces `undefined` by `v`.  In particular
`tagsSchema = z.array(...).max(50).optional().default([])`, so a schema using
`tagsSchema` directly turns an omitted tags field into `[]`, while
`tagsSchema.optional()` (as in the create schema) leaves it `undefined`. -/

/-- zod `z.string().cuid()` (the v3 pattern: a leading `c`, then at least 8
characters none of which is whitespace or a hyphen). -/
def isCuid (s : String) : Bool :=
  match s.data with
  | [] => false
  | c :: rest =>
    (c == 'c' || c == 'C') && decide (8 ≤ rest.length) &&
      rest.all (fun ch => !ch.isWhitespace && ch != '-')

/-- Content bounds from `contentSchema` / `memoryContentSchema`. -/
def contentValid (s : String) : Bool :=
  decide (1 ≤ s.length) && decide (s.length ≤ 10240)

/-- One tag's bounds from `tagsSchema` / `memoryTagsSchema`. -/
def tagValid (t : String) : Bool :=
  decide (1 ≤ t.length) && decide (t.length ≤ 100)

/-- Tag list bounds: each tag valid, at most 50 tags. -/
def tagsValid (ts : List String) : Bool :=
  decide (ts.length ≤ 50) && ts.all tagValid

/-- TTL bounds enforced by `ttlSchema` (`int, min 60, max 604800`). -/
def ttlSchemaValid (t : Int) : Bool :=
  decide (60 ≤ t) && decide (t ≤ 604800)

/-! ### Short-term store configuration (DEFAULT_STM_CONFIG) -/

def defaultTtl : Int := 86400
def minTtl : Int := 60
def maxTtl : Int := 604800
def stmKeyPfx : String := "memory:stm"

/-- The service's `validateTtl` (throws `StmTtlValidationError` outside
`[minTtl, maxTtl]`). -/
def validTtl (t : Int) : Bool := minTtl ≤ t && t ≤ maxTtl

/-- Cache key for one entry (`StmKeyBuilder.buildMemoryKey` at the default
key prefix). -/
def buildMemoryKey (userId memoryId : String) : String :=
  stmKeyPfx ++ ":" ++ userId ++ ":" ++ memoryId

/-- Wildcard pattern for one tenant (`StmKeyBuilder.buildUserPattern`). -/
def buildUserPattern (userId : String) : String :=
  stmKeyPfx ++ ":" ++ userId ++ ":*"

/-- Input of `MemoryStmService.create` (`CreateStmMemoryData` before parsing). -/
structure CreateStmInput where
  userId : String
  content : String
  metadata : Option MetaMap
  tags : Option (List String)
  ttl : Option Int
  deriving Repr, DecidableEq

/-- Validity of a create input under `createStmMemorySchema`: cuid userId,
bounded content, bounded tags when provided, TTL within schema bounds when
provided (metadata is an arbitrary map, always valid).  The create schema
uses `tagsSchema.optional()`, so parsing applies no tags default. -/
def createStmValid (i : CreateStmInput) : Bool :=
  isCuid i.userId && contentValid i.content &&
    (match i.tags with | none => true | some ts => tagsValid ts) &&
    (match i.ttl with | none => true | some t => ttlSchemaValid t)

/-- Input of `MemoryStmService.update` (`UpdateStmMemoryData` before parsing). -/
structure UpdateStmInput where
  content : Option String
  metadata : Option MetaMap
  tags : Option (List String)
  ttl : Option Int
  deriving Repr, DecidableEq

/-- Validity of an update input under `updateStmMemorySchema`. -/
def updateStmValid (i : UpdateStmInput) : Bool :=
  (match i.content with | none => true | some c => contentValid c) &&
    (match i.tags with | none => true | some ts => tagsValid ts) &&
    (match i.ttl with | none => true | some t => ttlSchemaValid t)

/-- Parse result of `updateStmMemorySchema`.  The schema's `tags` field is
`tagsSchema` (which carries `.default([])`), so the parsed tags are always a
concrete list: an omitted tags field parses to `[]`. -/
structure UpdateStmParsed where
  content : Option String
  metadata : Option MetaMap
  tags : List String
  ttl : Option Int
  deriving Repr, DecidableEq

/-- `updateStmMemorySchema.parse`: reject invalid fields, apply the tags
default. -/
def parseUpdateStm (i : UpdateStmInput) : Option UpdateStmParsed :=
  if updateStmValid i then
    some { content := i.content, metadata := i.metadata,
           tags := i.tags.getD [], ttl := i.ttl }
  else none

/-! ### Short-term store operations (MemoryStmService)

Each operation returns its outcome together with the cache state it leaves
behind (an error can still change the state: `findById` deletes a stale key
before failing with `ExpiredError`). -/

/-- `MemoryStmService.create`: parse the input, apply the default TTL when
omitted, run `validateTtl`, then write the serialized entry under its key
with a physical TTL.  `newId` stands for the generated `randomUUID()`. -/
def stmCreate (st : RedisState) (now : Nat) (newId : String) (i : CreateStmInput) :
    Except StmError StmMemory × RedisState :=
  if !createStmValid i then (.error .schemaInvalid, st)
  else
    let ttl := i.ttl.getD defaultTtl
    if !validTtl ttl then (.error .ttlValidation, st)
    else
      let expiresAt := now + ttl.toNat * 1000
      let m : StmMemory :=
        { id := newId, userId := i.userId, content := i.content,
          metadata := i.metadata, tags := i.tags.getD [],
          createdAt := now, updatedAt := now, expiresAt := expiresAt, ttl := ttl }
      (.ok m, rset st (buildMemoryKey i.userId newId) ⟨m, some expiresAt⟩)

/-- `MemoryStmService.findById`: read the key; absent keys fail with
`NotFoundError`; a present entry whose `expiresAt` lies strictly in the past
(the source compares with `>`) is deleted and fails with `ExpiredError`. -/
def stmFindById (st : RedisState) (now : Nat) (userId memoryId : String) :
    Except StmError StmMemory × RedisState :=
  let key := buildMemoryKey userId memoryId
  match rget st key with
  | none => (.error .notFound, st)
  | some v =>
    if now > v.mem.expiresAt then (.error .expired, (rdel st key).2)
    else (.ok v.mem, st)

/-- `MemoryStmService.delete`: delete the key, failing with `NotFoundError`
when nothing was removed. -/
def stmDelete (st : RedisState) (userId memoryId : String) :
    Except StmError Unit × RedisState :=
  let r := rdel st (buildMemoryKey userId memoryId)
  if r.1 == 0 then (.error .notFound, r.2) else (.ok (), r.2)

/-- `MemoryStmService.update`: parse the input (before touching the store),
load the existing entry via `findById`, validate the effective TTL, then merge
and rewrite the key with a fresh physical TTL.  Because the parsed tags are
never `undefined` (schema default `[]`), the source's `validatedInput.tags ??
existing.tags` always takes the parsed value. -/
def stmUpdate (st : RedisState) (now : Nat) (userId memoryId : String)
    (i : UpdateStmInput) : Except StmError StmMemory × RedisState :=
  match parseUpdateStm i with
  | none => (.error .schemaInvalid, st)
  | some p =>
    match stmFindById st now userId memoryId with
    | (.error e, st') => (.error e, st')
    | (.ok existing, st') =>
      let newTtl := p.ttl.getD existing.ttl
      if !validTtl newTtl then (.error .ttlValidation, st')
      else
        let expiresAt := now + newTtl.toNat * 1000
        let updated : StmMemory :=
          { existing with
            content := p.content.getD existing.content,
            metadata := match p.metadata with
                        | some m => some m
                        | none => existing.metadata,
            tags := p.tags,
            updatedAt := now, expiresAt := expiresAt, ttl := newTtl }
        (.ok updated,
          rset st' (buildMemoryKey userId memoryId) ⟨updated, some expiresAt⟩)

/-- `MemoryStmService.getTtl`: remaining physical TTL; `-2` (absent key) fails
with `NotFoundError`, `-1` (no TTL) yields `0` with a warning. -/
def stmGetTtl (st : RedisState) (now : Nat) (userId memoryId : String) :
    Except StmError Int × RedisState :=
  let t := rttl st now (buildMemoryKey userId memoryId)
  if t == -2 then (.error .notFound, st)
  else if t == -1 then (.ok 0, st)
  else (.ok t, st)

/-- `MemoryStmService.extendTtl`: load the entry, read the remaining TTL, add
`additionalSeconds`, run `validateTtl` on the sum, then update with the new
absolute TTL (passing the existing tags through explicitly, as the source
does to keep them from being reset by the update schema's default). -/
def stmExtendTtl (st : RedisState) (now : Nat) (userId memoryId : String)
    (additionalSeconds : Int) : Except StmError StmMemory × RedisState :=
  match stmFindById st now userId memoryId with
  | (.error e, st') => (.error e, st')
  | (.ok existing, st') =>
    match stmGetTtl st' now userId memoryId with
    | (.error e, st'') => (.error e, st'')
    | (.ok currentTtl, st'') =>
      let newTtl := currentTtl + additionalSeconds
      if !validTtl newTtl then (.error .ttlValidation, st'')
      else
        stmUpdate st'' now userId memoryId
          { content := none, metadata := none,
            tags := some existing.tags, ttl := some newTtl }

/-! ### Long-term store (MemoryLtmService)

The relational tier is a list of rows of the `Memory` table; all queries are
scoped by `userId` and `type = 'long-term'`.  `maxPer` stands for the
configured `maxMemoriesPerUser` (default 10000 in `DEFAULT_LTM_CONFIG`). -/

/-- A row of the `Memory` table. -/
structure LtmRow where
  id : String
  userId : String
  content : String
  metadata : Option MetaMap
  tags : List String
  type : String
  createdAt : Nat
  updatedAt : Nat
  expiresAt : Option Nat
  deriving Repr, DecidableEq

/-- The relational tier state. -/
abbrev DbState := List LtmRow

/-- The error surface of `MemoryLtmService`: `LtmMemoryNotFoundError`,
`LtmMemoryQuotaExceededError`, `LtmPromotionError`, `LtmDatabaseError`, and a
zod schema rejection. -/
inductive LtmError
  | notFound
  | quotaExceeded
  | promotionError
  | databaseError
  | schemaInvalid
  deriving Repr, DecidableEq

def longTermType : String := "long-term"

/-- `prisma.memory.count` scoped by user and long-term type, as issued by
`MemoryLtmService.checkQuota`. -/
def countLongTerm (db : DbState) (userId : String) : Nat :=
  (db.filter (fun r => r.userId == userId && r.type == longTermType)).length

/-- Input of `MemoryLtmService.create` (`CreateLtmMemoryData`).  The metadata
schema is `.optional().nullable()`: the outer `Option` is presence, the inner
one distinguishes an explicit `null`. -/
structure CreateLtmInput where
  userId : String
  content : String
  metadata : Option (Option MetaMap)
  tags : Option (List String)
  deriving Repr, DecidableEq

/-- Validity under `createLtmMemorySchema` (cuid userId, bounded content and
tags). -/
def createLtmValid (i : CreateLtmInput) : Bool :=
  isCuid i.userId && contentValid i.content &&
    (match i.tags with | none => true | some ts => tagsValid ts)

/-- `MemoryLtmService.create`: validate, check the quota (a plain
non-transactional count, see `quotaRacePair`), then insert the row with
`expiresAt = null`.  `newId` stands for the id generated by the database
default. -/
def ltmCreate (db : DbState) (now : Nat) (newId : String) (i : CreateLtmInput)
    (maxPer : Nat) : Except LtmError LtmRow × DbState :=
  if !createLtmValid i then (.error .schemaInvalid, db)
  else if maxPer ≤ countLongTerm db i.userId then (.error .quotaExceeded, db)
  else
    let row : LtmRow :=
      { id := newId, userId := i.userId, content := i.content,
        metadata := i.metadata.getD none, tags := i.tags.getD [],
        type := longTermType, createdAt := now, updatedAt := now,
        expiresAt := none }
    (.ok row, db ++ [row])

/-- `MemoryLtmService.get`: `findFirst` scoped by id, user, and long-term
type; a miss is `null`, not an error. -/
def ltmGet (db : DbState) (userId memoryId : String) : Option LtmRow :=
  db.find? (fun r => r.id == memoryId && r.userId == userId && r.type == longTermType)

/-- The service's `mapToLtmMemory`: forces `type = 'long-term'` and
`expiresAt = null` on the returned view of a row. -/
def ltmView (r : LtmRow) : LtmRow :=
  { r with type := longTermType, expiresAt := none }

/-- Input of `MemoryLtmService.update` (`UpdateLtmMemoryData`). -/
structure UpdateLtmInput where
  content : Option String
  metadata : Option (Option MetaMap)
  tags : Option (List String)
  deriving Repr, DecidableEq

/-- Validity under `updateLtmMemorySchema`. -/
def updateLtmValid (i : UpdateLtmInput) : Bool :=
  (match i.content with | none => true | some c => contentValid c) &&
    (match i.tags with | none => true | some ts => tagsValid ts)

/-- Field application of `prisma.memory.update` as built by
`MemoryLtmService.update`: content only when provided; metadata when provided
(an explicit `null` clears it); tags always, because `updateLtmMemorySchema`
uses `memoryTagsSchema` whose `.default([])` turns an omitted tags field into
`[]`; `updatedAt` refreshed. -/
def ltmApplyUpdate (i : UpdateLtmInput) (now : Nat) (r : LtmRow) : LtmRow :=
  { r with
    content := i.content.getD r.content,
    metadata := match i.metadata with
                | some v => v
                | none => r.metadata,
    tags := i.tags.getD [],
    updatedAt := now }

/-- `MemoryLtmService.update`: validate, check existence via `get` (scoped),
fail with `NotFoundError` on a miss, otherwise apply the provided fields. -/
def ltmUpdate (db : DbState) (now : Nat) (userId memoryId : String)
    (i : UpdateLtmInput) : Except LtmError LtmRow × DbState :=
  if !updateLtmValid i then (.error .schemaInvalid, db)
  else
    match ltmGet db userId memoryId with
    | none => (.error .notFound, db)
    | some existing =>
      let updated := ltmApplyUpdate i now existing
      let db' := db.map (fun r =>
        if r.id == memoryId && r.userId == userId && r.type == longTermType
        then ltmApplyUpdate i now r else r)
      (.ok updated, db')

/-- `MemoryLtmService.delete`: `deleteMany` scoped by id, user, and long-term
type; returns whether a row was removed (false, not an error, on a miss). -/
def ltmDelete (db : DbState) (userId memoryId : String) : Bool × DbState :=
  (db.any (fun r => r.id == memoryId && r.userId == userId && r.type == longTermType),
   db.filter (fun r =>
     !(r.id == memoryId && r.userId == userId && r.type == longTermType)))

/-! ### Long-term listing (MemoryLtmService.list) -/

/-- A paginated result envelope (`PaginatedResult`). -/
structure Page (α : Type) where
  items : List α
  totalCount : Nat
  hasNextPage : Bool
  hasPreviousPage : Bool
  startCursor : Option String
  endCursor : Option String
  deriving Repr, DecidableEq

/-- Query options accepted by `MemoryLtmService.list` (`LtmQueryOptions`). -/
structure LtmListOptions where
  limit : Option Nat
  cursor : Option String
  tags : Option (List String)
  dateFrom : Option Nat
  dateTo : Option Nat
  search : Option String
  sortBy : Option String
  sortOrder : Option String
  deriving Repr, DecidableEq

/-- Validity under `ltmQueryOptionsSchema` (limit 1..100, cuid cursor, search
at most 500 characters, enumerated sort fields). -/
def ltmOptsValid (o : LtmListOptions) : Bool :=
  (match o.limit with | none => true | some l => decide (1 ≤ l) && decide (l ≤ 100)) &&
    (match o.cursor with | none => true | some c => isCuid c) &&
    (match o.search with | none => true | some s => decide (s.length ≤ 500)) &&
    (match o.sortBy with | none => true | some s => s == "createdAt" || s == "updatedAt") &&
    (match o.sortOrder with | none => true | some s => s == "asc" || s == "desc")

/-- Case-insensitive substring test (prisma `contains` with `mode:
'insensitive'`). -/
def strContains (hay needle : String) : Bool :=
  needle == "" || decide (2 ≤ (hay.toLower.splitOn needle.toLower).length)

/-- The prisma `where` clause built by `MemoryLtmService.list`/`count`:
user and type scope, `hasSome` tag filter (only when a nonempty tag list was
provided), inclusive `createdAt` date range, case-insensitive content search. -/
def ltmRowMatches (userId : String) (o : LtmListOptions) (r : LtmRow) : Bool :=
  r.userId == userId && r.type == longTermType &&
    (match o.tags with
     | none => true
     | some ts => ts.isEmpty || ts.any (fun t => r.tags.contains t)) &&
    (match o.dateFrom with | none => true | some d => decide (d ≤ r.createdAt)) &&
    (match o.dateTo with | none => true | some d => decide (r.createdAt ≤ d)) &&
    (match o.search with | none => true | some s => strContains r.content s)

/-- Sort key selected by `orderBy` (`createdAt` or `updatedAt`). -/
def rowSortKey (sortBy : String) (r : LtmRow) : Nat :=
  if sortBy == "updatedAt" then r.updatedAt else r.createdAt

/-- Insert into a list sorted by `le`. -/
def insertSorted (le : LtmRow → LtmRow → Bool) (r : LtmRow) :
    List LtmRow → List LtmRow
  | [] => [r]
  | x :: xs => if le r x then r :: x :: xs else x :: insertSorted le r xs

/-- The database's `orderBy` result: rows sorted by the selected key in the
selected direction. -/
def sortRows (sortBy sortOrder : String) (rows : List LtmRow) : List LtmRow :=
  let le := fun a b =>
    if sortOrder == "asc" then decide (rowSortKey sortBy a ≤ rowSortKey sortBy b)
    else decide (rowSortKey sortBy b ≤ rowSortKey sortBy a)
  rows.foldr (insertSorted le) []

/-- Prisma cursor pagination as used by `list`: start just after the row whose
id is the cursor (`cursor` + `skip: 1`). -/
def afterCursor (cursor : Option String) (rows : List LtmRow) : List LtmRow :=
  match cursor with
  | none => rows
  | some c => ((rows.dropWhile (fun r => r.id != c)).drop 1)

/-- `MemoryLtmService.list`: validate options (defaults: limit 20, sort by
`createdAt` descending), filter, count under the same filter, sort, fetch
`limit + 1` rows past the cursor to detect a next page, and trim the extra
row. -/
def ltmList (db : DbState) (userId : String) (o : LtmListOptions) :
    Except LtmError (Page LtmRow) :=
  if !ltmOptsValid o then .error .schemaInvalid
  else
    let limit := o.limit.getD 20
    let sortBy := o.sortBy.getD "createdAt"
    let sortOrder := o.sortOrder.getD "desc"
    let filtered := db.filter (ltmRowMatches userId o)
    let totalCount := filtered.length
    let window := (afterCursor o.cursor (sortRows sortBy sortOrder filtered)).take (limit + 1)
    let hasNext := decide (limit < window.length)
    let items := (window.take limit).map ltmView
    .ok { items := items, totalCount := totalCount,
          hasNextPage := hasNext, hasPreviousPage := o.cursor.isSome,
          startCursor := items.head?.map (·.id),
          endCursor := items.getLast?.map (·.id) }

/-! ### Promotion (MemoryLtmService.promote) and the quota race -/

/-- The quota read issued by `MemoryLtmService.checkQuota`.  In the source
this count always goes through `this.prisma` — the service's shared,
non-transactional client — even when `checkQuota` is invoked from inside the
`$transaction` callback of `promote` (which ignores its transaction-scoped
client for this read), and `create` performs it with no transaction at all. -/
def promoteQuotaRead (db : DbState) (userId : String) : Nat :=
  countLongTerm db userId

/-- The row insert of the promotion transaction. -/
def promoteInsert (db : DbState) (row : LtmRow) : DbState := db ++ [row]

/-- The long-term row built inside `promote`: identity, content, metadata,
tags, and `createdAt` carried over from the short-term source; `updatedAt`
set to now; `expiresAt` null. -/
def promotedRow (m : StmMemory) (now : Nat) : LtmRow :=
  { id := m.id, userId := m.userId, content := m.content,
    metadata := m.metadata, tags := m.tags, type := longTermType,
    createdAt := m.createdAt, updatedAt := now, expiresAt := none }

/-- Combined system state: the cache tier and the relational tier. -/
structure SysState where
  redis : RedisState
  db : DbState
  deriving Repr, DecidableEq

/-- `MemoryLtmService.promote` (single-call semantics): read the source entry
from the short-term store (any failure there is wrapped into
`LtmPromotionError` by the surrounding catch), run the quota check and the
insert, then best-effort delete the short-term source — a delete failure is
only logged, so the call still succeeds.  `cacheDeleteAvailable` injects
whether the cache transport is reachable for that final delete. -/
def ltmPromote (S : SysState) (now : Nat) (userId memoryId : String)
    (maxPer : Nat) (cacheDeleteAvailable : Bool) :
    Except LtmError LtmRow × SysState :=
  match stmFindById S.redis now userId memoryId with
  | (.error _, r') => (.error .promotionError, { S with redis := r' })
  | (.ok m, r') =>
    if maxPer ≤ promoteQuotaRead S.db userId then
      (.error .quotaExceeded, { S with redis := r' })
    else
      let row := promotedRow m now
      let db' := promoteInsert S.db row
      let r'' := if cacheDeleteAvailable then (stmDelete r' userId memoryId).2 else r'
      (.ok row, { redis := r'', db := db' })

/-- Two concurrent quota-checked inserts for one tenant, in the interleaving
"read₁, read₂, insert₁, insert₂".  This interleaving is reachable in the
source because the quota read is not isolated from the other call's insert:
`create` runs `checkQuota` and `prisma.memory.create` with no transaction,
and `promote`'s `checkQuota` reads through `this.prisma` (the shared
connection) rather than the transaction-scoped client passed to the
`$transaction` callback, so neither call's read happens inside the
serialization scope of the other call's insert. -/
def quotaRacePair (db : DbState) (userId : String) (row1 row2 : LtmRow)
    (maxPer : Nat) : (Bool × Bool) × DbState :=
  let c1 := promoteQuotaRead db userId
  let c2 := promoteQuotaRead db userId
  let s1 := if c1 < maxPer then (true, promoteInsert db row1) else (false, db)
  let s2 := if c2 < maxPer then (true, promoteInsert s1.2 row2) else (false, s1.2)
  ((s1.1, s2.1), s2.2)

/-! ### Coordinator (MemoryService, apps/mcp-server)

The coordinator owns no storage; it fans out to the two services.  Its
`get`/`update`/`delete` wrap the short-term call in a `try`/`catch` whose
catch clause is unconditional: any rejection from the short-term service —
not only not-found/expired — takes the long-term branch. -/

/-- The coordinator's caller-facing `Memory` shape. -/
structure Memory where
  id : String
  userId : String
  content : String
  metadata : Option MetaMap
  tags : List String
  type : String
  createdAt : Nat
  updatedAt : Nat
  expiresAt : Option Nat
  deriving Repr, DecidableEq

/-- `MemoryService.mapStmToMemory`. -/
def mapStmToMemory (m : StmMemory) : Memory :=
  { id := m.id, userId := m.userId, content := m.content,
    metadata := m.metadata, tags := m.tags, type := "short-term",
    createdAt := m.createdAt, updatedAt := m.updatedAt,
    expiresAt := some m.expiresAt }

/-- `MemoryService.mapLtmToMemory` composed with the service's
`mapToLtmMemory` view of a row. -/
def mapLtmToMemory (r : LtmRow) : Memory :=
  { id := (ltmView r).id, userId := (ltmView r).userId,
    content := (ltmView r).content, metadata := (ltmView r).metadata,
    tags := (ltmView r).tags, type := "long-term",
    createdAt := (ltmView r).createdAt, updatedAt := (ltmView r).updatedAt,
    expiresAt := (ltmView r).expiresAt }

/-- Options of `MemoryService.listMemories` (`ListMemoryOptions`). -/
structure ListMemoryOptions where
  limit : Option Nat
  cursor : Option String
  tags : Option (List String)
  search : Option String
  deriving Repr, DecidableEq

/-- `MemoryService.listMemories`: the source queries only the long-term tier
("For now, only query LTM since STM list() is not fully implemented") and
passes `limit: options.limit || 10` (JavaScript falsiness: an absent or zero
limit becomes 10), returning the long-term page unchanged apart from the
item mapping.  The cache tier of `S` is never consulted. -/
def listMemories (S : SysState) (userId : String) (o : ListMemoryOptions) :
    Except LtmError (Page Memory) :=
  let effLimit := match o.limit with
                  | none => 10
                  | some l => if l == 0 then 10 else l
  match ltmList S.db userId
      { limit := some effLimit, cursor := o.cursor, tags := o.tags,
        dateFrom := none, dateTo := none, search := o.search,
        sortBy := none, sortOrder := none } with
  | .error e => .error e
  | .ok p =>
    .ok { items := p.items.map mapLtmToMemory, totalCount := p.totalCount,
          hasNextPage := p.hasNextPage, hasPreviousPage := p.hasPreviousPage,
          startCursor := p.startCursor, endCursor := p.endCursor }

/-- Updates accepted by `MemoryService.updateMemory` (`UpdateMemoryDto`). -/
structure UpdateMemoryDto where
  content : Option String
  metadata : Option MetaMap
  tags : Option (List String)
  ttl : Option Int
  deriving Repr, DecidableEq

/-- `MemoryService.updateMemory`: try the short-term update first — note the
source passes `tags: updates.tags ?? []`, so an omitted tags field reaches
the short-term service as an explicit empty list — and on any short-term
failure fall back to the long-term update (which ignores `ttl`). -/
def updateMemory (S : SysState) (now : Nat) (userId memoryId : String)
    (dto : UpdateMemoryDto) : Except LtmError Memory × SysState :=
  match stmUpdate S.redis now userId memoryId
      { content := dto.content, metadata := dto.metadata,
        tags := some (dto.tags.getD []), ttl := dto.ttl } with
  | (.ok m, r') => (.ok (mapStmToMemory m), { S with redis := r' })
  | (.error _, r') =>
    match ltmUpdate S.db now userId memoryId
        { content := dto.content, metadata := dto.metadata.map some,
          tags := dto.tags } with
    | (.ok row, db') => (.ok (mapLtmToMemory row), { redis := r', db := db' })
    | (.error e, db') => (.error e, { redis := r', db := db' })

/-- `MemoryService.deleteMemory`: try the short-term delete; when it succeeds
return `true` immediately (the long-term tier is not consulted); on any
short-term failure — including not-found — fall back to the long-term delete
and return its boolean. -/
def deleteMemory (S : SysState) (userId memoryId : String) : Bool × SysState :=
  match stmDelete S.redis userId memoryId with
  | (.ok _, r') => (true, { S with redis := r' })
  | (.error _, r') =>
    let d := ltmDelete S.db userId memoryId
    (d.1, { redis := r', db := d.2 })

/-- The control flow of `MemoryService.getMemory` as a function of the two
tier calls' outcomes: the short-term `findById` result (an entry, or any of
the service's failures) and the long-term `get` result.  The source's catch
clause is unconditional, so every short-term failure selects the long-term
branch, and only a long-term failure can propagate. -/
def getMemoryFlow (stmOutcome : Except StmError StmMemory)
    (ltmOutcome : Except LtmError (Option LtmRow)) :
    Except LtmError (Option Memory) :=
  match stmOutcome with
  | .ok m => .ok (some (mapStmToMemory m))
  | .error _ =>
    match ltmOutcome with
    | .error e => .error e
    | .ok r => .ok (r.map mapLtmToMemory)

/-- The control flow of `MemoryService.updateMemory` as a function of the two
tier calls' outcomes, with the same unconditional catch. -/
def updateMemoryFlow (stmOutcome : Except StmError StmMemory)
    (ltmOutcome : Except LtmError LtmRow) : Except LtmError Memory :=
  match stmOutcome with
  | .ok m => .ok (mapStmToMemory m)
  | .error _ =>
    match ltmOutcome with
    | .error e => .error e
    | .ok row => .ok (mapLtmToMemory row)

/-! ### Key builder over character lists (StmKeyBuilder)

For structural reasoning about key construction, `split(':')`, and the redis
glob pattern, the key builder is modelled a second time with strings as
character lists.  `KB.buildMemoryKey`/`KB.buildUserPattern` mirror
`buildMemoryKey`/`buildUserPattern` above character by character;
`KB.extractMemoryId`/`KB.extractUserId` mirror the source's
`key.split(':')` followed by indexing from the end.  `KB.globMatch` is the
redis glob semantics for the `*` and `?` metacharacters (character classes
and backslash escapes are not modelled; the theorems that rely on
`KB.globMatch` restrict ids to exclude all glob metacharacters). -/

namespace KB

abbrev Str := List Char

def stmPfx : Str := "memory:stm".toList

/-- `StmKeyBuilder.buildMemoryKey`. -/
def buildMemoryKey (userId memoryId : Str) : Str :=
  stmPfx ++ (':' :: (userId ++ (':' :: memoryId)))

/-- `StmKeyBuilder.buildUserPattern`. -/
def buildUserPattern (userId : Str) : Str :=
  stmPfx ++ (':' :: (userId ++ [':', '*']))

/-- JavaScript `key.split(':')`: every (possibly empty) segment between
colons, in order. -/
def splitOnColon : Str → List Str
  | [] => [[]]
  | c :: cs =>
    match splitOnColon cs with
    | [] => [[]]
    | seg :: rest =>
      if c = ':' then [] :: seg :: rest else (c :: seg) :: rest

/-- `StmKeyBuilder.extractMemoryId`: the last segment, or `null` when it is
empty. -/
def extractMemoryId (key : Str) : Option Str :=
  match (splitOnColon key).getLast? with
  | none => none
  | some s => if s.isEmpty then none else some s

/-- `StmKeyBuilder.extractUserId`: the second-to-last segment
(`parts[parts.length - 2]`, which is `undefined` — hence `null` — when there
are fewer than two segments), or `null` when it is empty. -/
def extractUserId (key : Str) : Option Str :=
  let parts := splitOnColon key
  if parts.length < 2 then none
  else
    match parts.get? (parts.length - 2) with
    | none => none
    | some s => if s.isEmpty then none else some s

/-- Redis glob matching restricted to the `*` and `?` metacharacters. -/
def globMatch : Str → Str → Bool
  | [], [] => true
  | [], _ :: _ => false
  | p :: ps, [] => p = '*' && globMatch ps []
  | p :: ps, c :: cs =>
    if p = '*' then globMatch ps (c :: cs) || globMatch (p :: ps) cs
    else if p = '?' then globMatch ps cs
    else p = c && globMatch ps cs
termination_by p s => (p.length, s.length)

/-- Literal prefix test on character lists. -/
def startsWithLit : Str → Str → Bool
  | [], _ => true
  | _ :: _, [] => false
  | p :: ps, c :: cs => p = c && startsWithLit ps cs

/-- A colon-free string (the delimiter cannot occur inside the id). -/
def colonFree (s : Str) : Prop := ∀ c ∈ s, c ≠ ':'

instance (s : Str) : Decidable (colonFree s) := by
  unfold colonFree; infer_instance

/-- A string free of the glob metacharacters (so it reads as a literal inside
a pattern). -/
def globSafe (s : Str) : Prop :=
  ∀ c ∈ s, c ≠ '*' ∧ c ≠ '?' ∧ c ≠ '[' ∧ c ≠ '\\'

instance (s : Str) : Decidable (globSafe s) := by
  unfold globSafe; infer_instance

end KB

/-! ### Concrete fixtures used by the closed theorems

Tenant ids are cuid-form strings; entries and rows are small literal values
used to evaluate the operations on explicit states. -/

def uidA : String := "cuser0000001"
def uidB : String := "cuser0000002"

def c7mem : StmMemory :=
  { id := "m7", userId := uidA, content := "hello", metadata := none, tags := [],
    createdAt := 1000, updatedAt := 1000, expiresAt := 5000, ttl := 60 }

def c7st : RedisState := [(buildMemoryKey uidA "m7", ⟨c7mem, some 5000⟩)]

def c6mem : StmMemory :=
  { id := "m6", userId := uidA, content := "old", metadata := some [("k", "v")],
    tags := ["a"], createdAt := 1000, updatedAt := 1000,
    expiresAt := 87401000, ttl := 86400 }

def c6st : RedisState := [(buildMemoryKey uidA "m6", ⟨c6mem, some 87401000⟩)]

/-- The entry a content-only update produces from an existing one: content
replaced, tags reset to `[]` by the update schema's default, bookkeeping
fields refreshed — and every other field (in particular metadata) untouched. -/
def contentOnlyUpdate (ex : StmMemory) (c : String) (now : Nat) : StmMemory :=
  { ex with
    content := c
    tags := []
    updatedAt := now
    expiresAt := now + ex.ttl.toNat * 1000 }

def c8mem : StmMemory :=
  { id := "m8e", userId := uidA, content := "hello", metadata := none, tags := [],
    createdAt := 1000, updatedAt := 1000, expiresAt := 62000, ttl := 60 }

def c8st : RedisState := [(buildMemoryKey uidA "m8e", ⟨c8mem, some 62000⟩)]

def c3mem : StmMemory :=
  { id := "m3", userId := uidA, content := "payload", metadata := some [("k", "v")],
    tags := ["a", "b"], createdAt := 1000, updatedAt := 1500,
    expiresAt := 90000000, ttl := 86400 }

def c3st : RedisState := [(buildMemoryKey uidA "m3", ⟨c3mem, some 90000000⟩)]

def c4mem : StmMemory :=
  { id := "m4", userId := uidA, content := "x", metadata := none, tags := [],
    createdAt := 1000, updatedAt := 1000, expiresAt := 999999999, ttl := 60 }

def c4st : RedisState := [(buildMemoryKey uidA "m4", ⟨c4mem, some 999999999⟩)]

def c4row : LtmRow :=
  { id := "m4", userId := uidA, content := "x", metadata := none, tags := [],
    type := longTermType, createdAt := 500, updatedAt := 500, expiresAt := none }

def c5row : LtmRow :=
  { id := "m5", userId := uidA, content := "y", metadata := none, tags := [],
    type := longTermType, createdAt := 100, updatedAt := 100, expiresAt := none }

def c1in : CreateStmInput := ⟨uidA, "hello", none, none, some 3600⟩

def c2row1 : LtmRow :=
  { id := "r1", userId := uidA, content := "a", metadata := none, tags := [],
    type := longTermType, createdAt := 1, updatedAt := 1, expiresAt := none }

def c2row2 : LtmRow :=
  { id := "r2", userId := uidA, content := "b", metadata := none, tags := [],
    type := longTermType, createdAt := 2, updatedAt := 2, expiresAt := none }

/-! ### Helper lemmas about the cache map -/

theorem rget_eq_none_iff {st : RedisState} {k : String} :
    rget st k = none ↔ ∀ x ∈ st, (x.1 == k) = false := by
  simp [rget, List.find?_eq_none]

theorem rget_after_rdel (st : RedisState) (k : String) :
    rget (rdel st k).2 k = none := by
  simp only [rdel]
  rw [rget_eq_none_iff]
  intro x hx
  have h := (List.mem_filter.mp hx).2
  simpa [bne] using h

theorem rdel_of_absent {st : RedisState} {k : String} (h : rget st k = none) :
    rdel st k = (0, st) := by
  have hall := rget_eq_none_iff.mp h
  have h1 : st.filter (fun p => p.1 == k) = [] := by
    rw [List.filter_eq_nil_iff]
    intro a ha
    simp [hall a ha]
  have h2 : st.filter (fun p => p.1 != k) = st := by
    rw [List.filter_eq_self]
    intro a ha
    simp [bne, hall a ha]
  simp [rdel, h1, h2]

theorem rdel_count_pos {st : RedisState} {k : String} {v : StoredVal}
    (h : rget st k = some v) : (rdel st k).1 ≠ 0 := by
  simp only [rget] at h
  obtain ⟨x, hx, -⟩ := Option.map_eq_some'.mp h
  have hp := List.find?_some hx
  have hmem : x ∈ st.filter (fun p => p.1 == k) :=
    List.mem_filter.mpr ⟨List.mem_of_find?_eq_some hx, hp⟩
  simp only [rdel]
  intro hlen
  rw [List.length_eq_zero] at hlen
  simp [hlen] at hmem

theorem stmDelete_of_present {st : RedisState} {u i : String} {v : StoredVal}
    (h : rget st (buildMemoryKey u i) = some v) :
    stmDelete st u i = (.ok (), (rdel st (buildMemoryKey u i)).2) := by
  have hpos := rdel_count_pos h
  simp [stmDelete, hpos]

theorem stmDelete_of_absent {st : RedisState} {u i : String}
    (h : rget st (buildMemoryKey u i) = none) :
    stmDelete st u i = (.error .notFound, st) := by
  simp [stmDelete, rdel_of_absent h]

theorem ltmDelete_of_absent {db : DbState} {u i : String}
    (h : ltmGet db u i = none) : ltmDelete db u i = (false, db) := by
  have hall := List.find?_eq_none.mp h
  have h1 : db.any (fun r => r.id == i && r.userId == u && r.type == longTermType) = false := by
    rw [List.any_eq_false]
    exact hall
  have h2 : db.filter
      (fun r => !(r.id == i && r.userId == u && r.type == longTermType)) = db := by
    rw [List.filter_eq_self]
    intro r hr
    have hr' := hall r hr
    rw [Bool.not_eq_true] at hr'
    simp [hr']
  simp only [ltmDelete]
  rw [h1, h2]

theorem stmDelete_state (st : RedisState) (u i : String) :
    (stmDelete st u i).2 = (rdel st (buildMemoryKey u i)).2 := by
  simp only [stmDelete]
  split <;> rfl

/-! ### Claim C7 — expiry-aware reads -/

/-- C7 counterexample: the claim requires `findById` to fail with
`ExpiredError` whenever `now ≥ expiresAt`, but the source compares with a
strict `>`; at `now = expiresAt` exactly (here both are 5000) `findById`
returns the stale entry and leaves the key in place. -/
theorem c7_counterexample :
    stmFindById c7st 5000 uidA "m7" = (.ok c7mem, c7st) := by decide

/-- C7 (amended to a strict comparison): for every stored short-term entry
whose record is still physically present, `findById` at any `now` strictly
past `expiresAt` deletes the stored key and fails with `ExpiredError`, and a
subsequent `findById` for the same tenant and id fails with
`NotFoundError`. -/
theorem c7_expiry_strict (st : RedisState) (now : Nat) (u i : String) (v : StoredVal)
    (hget : rget st (buildMemoryKey u i) = some v)
    (hexp : v.mem.expiresAt < now) :
    stmFindById st now u i = (.error .expired, (rdel st (buildMemoryKey u i)).2) ∧
    stmFindById (rdel st (buildMemoryKey u i)).2 now u i
      = (.error .notFound, (rdel st (buildMemoryKey u i)).2) := by
  constructor
  · simp only [stmFindById, hget]
    rw [if_pos hexp]
  · simp only [stmFindById, rget_after_rdel]

/-- C7 witness: the amended theorem applied at the concrete fixture one
millisecond past expiry. -/
theorem c7_expiry_strict_witness :
    stmFindById c7st 5001 uidA "m7"
      = (.error .expired, (rdel c7st (buildMemoryKey uidA "m7")).2) ∧
    stmFindById (rdel c7st (buildMemoryKey uidA "m7")).2 5001 uidA "m7"
      = (.error .notFound, (rdel c7st (buildMemoryKey uidA "m7")).2) :=
  c7_expiry_strict c7st 5001 uidA "m7" ⟨c7mem, some 5000⟩ (by decide) (by decide)

/-! ### Claim C6 — field merging on update -/

/-- C6 counterexample: the claim says an update that provides only new
content leaves the stored tags unchanged, but `updateStmMemorySchema`'s tags
field carries zod's `.default([])`: an omitted tags field parses to `[]` and
overwrites.  On an entry with tags `["a"]`, a direct short-term update
providing only content returns an entry whose tags are `[]`. -/
theorem c6_counterexample :
    c6mem.tags = ["a"] ∧
    ((stmUpdate c6st 2000 uidA "m6"
        ⟨some "new", none, none, none⟩).1.map (fun m => m.tags)) = .ok [] := by
  decide

/-- C6 (amended): for an existing, unexpired short-term entry, an update
providing only content replaces the content and preserves metadata (omission
keeps the old value), but resets the stored tags to the empty list — both
when `update` is called on the short-term store directly and when it is
reached through the coordinator's `updateMemory` (which additionally rewrites
an omitted tags field into an explicit `[]`). -/
theorem c6_update_field_merge (st : RedisState) (db : DbState) (now : Nat)
    (u i c : String) (ex : StmMemory)
    (hc : contentValid c = true)
    (hfind : stmFindById st now u i = (.ok ex, st))
    (httl : validTtl ex.ttl = true) :
    stmUpdate st now u i ⟨some c, none, none, none⟩
      = (.ok (contentOnlyUpdate ex c now),
         rset st (buildMemoryKey u i)
           ⟨contentOnlyUpdate ex c now, some (now + ex.ttl.toNat * 1000)⟩) ∧
    (updateMemory ⟨st, db⟩ now u i ⟨some c, none, none, none⟩).1
      = .ok (mapStmToMemory (contentOnlyUpdate ex c now)) := by
  have hparse : stmUpdate st now u i ⟨some c, none, none, none⟩
      = (.ok (contentOnlyUpdate ex c now),
         rset st (buildMemoryKey u i)
           ⟨contentOnlyUpdate ex c now, some (now + ex.ttl.toNat * 1000)⟩) := by
    simp [stmUpdate, parseUpdateStm, updateStmValid, hc, hfind, httl, contentOnlyUpdate]
  refine ⟨hparse, ?_⟩
  have hcoord : stmUpdate st now u i ⟨some c, none, some [], none⟩
      = stmUpdate st now u i ⟨some c, none, none, none⟩ := by
    simp [stmUpdate, parseUpdateStm, updateStmValid, hc, tagsValid]
  simp only [updateMemory, Option.getD_none, hcoord, hparse]

/-- C6 witness: the amended theorem applied at the concrete fixture. -/
theorem c6_update_field_merge_witness :
    stmUpdate c6st 2000 uidA "m6" ⟨some "new", none, none, none⟩
      = (.ok (contentOnlyUpdate c6mem "new" 2000),
         rset c6st (buildMemoryKey uidA "m6")
           ⟨contentOnlyUpdate c6mem "new" 2000,
            some (2000 + (86400 : Int).toNat * 1000)⟩) ∧
    (updateMemory ⟨c6st, []⟩ 2000 uidA "m6" ⟨some "new", none, none, none⟩).1
      = .ok (mapStmToMemory (contentOnlyUpdate c6mem "new" 2000)) :=
  c6_update_field_merge c6st [] 2000 uidA "m6" "new" c6mem
    (by decide) (by decide) (by decide)

/-! ### Claim C8 — TTL bounds -/

/-- C8 counterexample: the claim says a TTL outside `[60, 604800]` supplied
directly to `create` fails with `TtlValidationError`, but the zod schema
already bounds the TTL, so `create` with `ttl = 30` is rejected by schema
validation (`ZodError`), a different error kind, before `validateTtl` can
run.  No entry is created either way. -/
theorem c8_counterexample :
    stmCreate [] 1000 "m8" ⟨uidA, "hello", none, none, some 30⟩
      = (.error .schemaInvalid, []) ∧
    StmError.schemaInvalid ≠ StmError.ttlValidation := by
  decide

/-- C8 (amended): a TTL outside `[60, 604800]` supplied directly to `create`
or `update` is rejected by schema validation (not `TtlValidationError`)
before any read or write, leaving the store untouched; a TTL outside the
bounds computed by `extendTtl` as remaining-TTL plus `additionalSeconds`
fails with `TtlValidationError`, also without mutating the store. -/
theorem c8_ttl_bounds :
    (∀ (st : RedisState) (now : Nat) (nid : String) (i : CreateStmInput) (t : Int),
      i.ttl = some t → (t < 60 ∨ 604800 < t) →
      stmCreate st now nid i = (.error .schemaInvalid, st)) ∧
    (∀ (st : RedisState) (now : Nat) (u mid : String) (i : UpdateStmInput) (t : Int),
      i.ttl = some t → (t < 60 ∨ 604800 < t) →
      stmUpdate st now u mid i = (.error .schemaInvalid, st)) ∧
    (∀ (st : RedisState) (now : Nat) (u mid : String) (add cur : Int) (ex : StmMemory),
      stmFindById st now u mid = (.ok ex, st) →
      stmGetTtl st now u mid = (.ok cur, st) →
      (cur + add < 60 ∨ 604800 < cur + add) →
      stmExtendTtl st now u mid add = (.error .ttlValidation, st)) := by
  refine ⟨?_, ?_, ?_⟩
  · intro st now nid i t hi hout
    have hts : ttlSchemaValid t = false := by
      rcases hout with h | h <;> simp [ttlSchemaValid] <;> omega
    simp [stmCreate, createStmValid, hi, hts]
  · intro st now u mid i t hi hout
    have hts : ttlSchemaValid t = false := by
      rcases hout with h | h <;> simp [ttlSchemaValid] <;> omega
    simp [stmUpdate, parseUpdateStm, updateStmValid, hi, hts]
  · intro st now u mid add cur ex hfind hget hout
    have hv : validTtl (cur + add) = false := by
      rcases hout with h | h <;> simp [validTtl, minTtl, maxTtl] <;> omega
    simp [stmExtendTtl, hfind, hget, hv]

/-- C8 witness: the amended theorem applied at concrete inputs — a create
with `ttl = 30`, an update with `ttl = 700000`, and an `extendTtl` pushing a
remaining TTL of 60 seconds past the maximum. -/
theorem c8_ttl_bounds_witness :
    stmCreate [] 1000 "m8" ⟨uidA, "hello", none, none, some 30⟩
      = (.error .schemaInvalid, []) ∧
    stmUpdate [] 1000 uidA "m8" ⟨none, none, none, some 700000⟩
      = (.error .schemaInvalid, []) ∧
    stmExtendTtl c8st 2000 uidA "m8e" 604800 = (.error .ttlValidation, c8st) :=
  ⟨c8_ttl_bounds.1 [] 1000 "m8" ⟨uidA, "hello", none, none, some 30⟩ 30 rfl
      (Or.inl (by decide)),
   c8_ttl_bounds.2.1 [] 1000 uidA "m8" ⟨none, none, none, some 700000⟩ 700000 rfl
      (Or.inr (by decide)),
   c8_ttl_bounds.2.2 c8st 2000 uidA "m8e" 604800 60 c8mem (by decide) (by decide)
      (Or.inr (by decide))⟩

/-! ### Claim C10 — cuid-format tenant ids -/

/-- C10: on both stores, `create` parses its input with a schema whose
`userId` field is `z.string().cuid()` before performing any read or write;
an input whose tenant id is not cuid-format is rejected with a schema
validation error and the store state is returned unchanged. -/
theorem c10_cuid_required (st : RedisState) (db : DbState) (now : Nat)
    (sid lid : String) (maxPer : Nat) (i : CreateStmInput) (j : CreateLtmInput)
    (hi : isCuid i.userId = false) (hj : isCuid j.userId = false) :
    stmCreate st now sid i = (.error .schemaInvalid, st) ∧
    ltmCreate db now lid j maxPer = (.error .schemaInvalid, db) := by
  constructor
  · simp [stmCreate, createStmValid, hi]
  · simp [ltmCreate, createLtmValid, hj]

/-- C10 witness: the theorem applied to the non-cuid tenant id `"user-1"`. -/
theorem c10_cuid_required_witness :
    stmCreate [] 1000 "m10" ⟨"user-1", "hello", none, none, none⟩
      = (.error .schemaInvalid, []) ∧
    ltmCreate [] 1000 "m10" ⟨"user-1", "hello", none, none⟩ 10000
      = (.error .schemaInvalid, []) :=
  c10_cuid_required [] [] 1000 "m10" "m10" 10000
    ⟨"user-1", "hello", none, none, none⟩ ⟨"user-1", "hello", none, none⟩
    (by decide) (by decide)

/-! ### Claim C3 — promotion fidelity and best-effort source delete -/

/-- C3: for a short-term entry E that exists (its `findById` succeeds),
`promote` returns a long-term entry with `id`, `tenantId`, `content`,
`metadata`, `tags`, and `createdAt` identical to E, with `expiresAt` null and
`updatedAt` set to now, and inserts that row; this holds for both values of
the cache-availability flag — when the subsequent best-effort short-term
delete cannot run, the promote call still succeeds with the same long-term
entry — and when the delete does run, the short-term source key is gone. -/
theorem c3_promote_fidelity (S : SysState) (now : Nat) (u i : String)
    (m : StmMemory) (maxPer : Nat) (delOk : Bool)
    (hfind : stmFindById S.redis now u i = (.ok m, S.redis))
    (hquota : countLongTerm S.db u < maxPer) :
    (ltmPromote S now u i maxPer delOk).1
      = .ok { id := m.id, userId := m.userId, content := m.content,
              metadata := m.metadata, tags := m.tags, type := longTermType,
              createdAt := m.createdAt, updatedAt := now, expiresAt := none } ∧
    (ltmPromote S now u i maxPer delOk).2.db = S.db ++ [promotedRow m now] ∧
    (delOk = true →
      rget (ltmPromote S now u i maxPer delOk).2.redis (buildMemoryKey u i) = none) := by
  have hq : ¬ maxPer ≤ promoteQuotaRead S.db u := by
    simp only [promoteQuotaRead]
    omega
  refine ⟨?_, ?_, ?_⟩
  · simp [ltmPromote, hfind, hq, promotedRow]
  · simp [ltmPromote, hfind, hq, promoteInsert]
  · intro hd
    simp [ltmPromote, hfind, hq, hd, stmDelete_state, rget_after_rdel]

/-- C3 witness: the fidelity theorem applied at a concrete promotable entry
with the cache delete available. -/
theorem c3_promote_fidelity_witness :
    (ltmPromote ⟨c3st, []⟩ 2000 uidA "m3" 10000 true).1
      = .ok { id := c3mem.id, userId := c3mem.userId, content := c3mem.content,
              metadata := c3mem.metadata, tags := c3mem.tags, type := longTermType,
              createdAt := c3mem.createdAt, updatedAt := 2000, expiresAt := none } ∧
    (ltmPromote ⟨c3st, []⟩ 2000 uidA "m3" 10000 true).2.db
      = [] ++ [promotedRow c3mem 2000] ∧
    rget (ltmPromote ⟨c3st, []⟩ 2000 uidA "m3" 10000 true).2.redis
      (buildMemoryKey uidA "m3") = none :=
  have h := c3_promote_fidelity ⟨c3st, []⟩ 2000 uidA "m3" c3mem 10000 true
    (by decide) (by decide)
  ⟨h.1, h.2.1, h.2.2 rfl⟩

/-! ### Claim C4 — coordinator delete -/

/-- C4 counterexample: the claim says delete attempts both tiers
independently (not short-circuited); with the same id present in both tiers,
the coordinator's delete returns true after removing only the short-term
copy and the long-term row survives untouched — the long-term deletion was
never attempted. -/
theorem c4_counterexample :
    (deleteMemory ⟨c4st, [c4row]⟩ uidA "m4").1 = true ∧
    (deleteMemory ⟨c4st, [c4row]⟩ uidA "m4").2.db = [c4row] ∧
    ltmGet [c4row] uidA "m4" = some c4row := by
  decide

/-- C4 (amended): the coordinator's delete tries the short-term tier first
and, when that deletion succeeds, returns true immediately without touching
the long-term tier; only when the short-term delete fails (its key is
absent) does it attempt the long-term delete, returning that tier's boolean
with the cache untouched; when the id is absent from both tiers it returns
false without raising an error and changes nothing. -/
theorem c4_delete_fallback (S : SysState) (u i : String) :
    (∀ v, rget S.redis (buildMemoryKey u i) = some v →
      deleteMemory S u i = (true, ⟨(rdel S.redis (buildMemoryKey u i)).2, S.db⟩)) ∧
    (rget S.redis (buildMemoryKey u i) = none →
      deleteMemory S u i
        = ((ltmDelete S.db u i).1, ⟨S.redis, (ltmDelete S.db u i).2⟩)) ∧
    (rget S.redis (buildMemoryKey u i) = none → ltmGet S.db u i = none →
      deleteMemory S u i = (false, S)) := by
  refine ⟨?_, ?_, ?_⟩
  · intro v h
    simp [deleteMemory, stmDelete_of_present h]
  · intro h
    simp [deleteMemory, stmDelete_of_absent h]
  · intro h hg
    simp [deleteMemory, stmDelete_of_absent h, ltmDelete_of_absent hg]

/-- C4 witness: the amended theorem applied with the id in both tiers, only
in the long-term tier, and in neither tier. -/
theorem c4_delete_fallback_witness :
    deleteMemory ⟨c4st, [c4row]⟩ uidA "m4"
      = (true, ⟨(rdel c4st (buildMemoryKey uidA "m4")).2, [c4row]⟩) ∧
    deleteMemory ⟨[], [c4row]⟩ uidA "m4"
      = ((ltmDelete [c4row] uidA "m4").1, ⟨[], (ltmDelete [c4row] uidA "m4").2⟩) ∧
    deleteMemory ⟨[], []⟩ uidA "m4" = (false, ⟨[], []⟩) :=
  ⟨(c4_delete_fallback ⟨c4st, [c4row]⟩ uidA "m4").1 ⟨c4mem, some 999999999⟩ (by decide),
   (c4_delete_fallback ⟨[], [c4row]⟩ uidA "m4").2.1 (by decide),
   (c4_delete_fallback ⟨[], []⟩ uidA "m4").2.2 (by decide) (by decide)⟩

/-! ### Claim C5 — error interception in get/update -/

/-- C5 counterexample: the claim says a short-term store/transport failure
propagates immediately without any fallback attempt; but the coordinator's
catch clause is unconditional, so with the short-term tier failing with a
store failure, get still consults the long-term tier — its result tracks the
long-term outcome (an entry when the long-term tier has one, null when it
does not) instead of propagating the short-term failure. -/
theorem c5_counterexample :
    getMemoryFlow (.error .storeFailure) (.ok (some c5row))
      = .ok (some (mapLtmToMemory c5row)) ∧
    getMemoryFlow (.error .storeFailure) (.ok none) = .ok none ∧
    (Except.ok (some (mapLtmToMemory c5row)) : Except LtmError (Option Memory))
      ≠ .ok none := by
  decide

/-- C5 (amended): in the coordinator's get and update, every short-term
failure — not-found and expired, but equally store/transport or validation
failures — is intercepted and triggers the long-term fallback; no short-term
error ever propagates to the caller. -/
theorem c5_any_stm_error_falls_back (e : StmError)
    (lo : Except LtmError (Option LtmRow)) (lo' : Except LtmError LtmRow) :
    getMemoryFlow (.error e) lo
      = (match lo with
         | .error er => .error er
         | .ok r => .ok (r.map mapLtmToMemory)) ∧
    updateMemoryFlow (.error e) lo'
      = (match lo' with
         | .error er => .error er
         | .ok row => .ok (mapLtmToMemory row)) := by
  constructor <;> rfl

/-! ### Claim C1 — coordinator list consults only the long-term tier -/

/-- C1: the claim (and spec P5) says the coordinator's list queries both
tiers and merges them with `totalCount` the sum of both counts; the source's
`listMemories` instead queries only the long-term tier ("For now, only query
LTM since STM list() is not fully implemented").  Starting from an empty
system, creating a short-term entry succeeds and stores it in the cache
tier, yet `listMemories` returns an empty page with `totalCount = 0`: the
short-term entry and its count are missing from the result the claim
requires. -/
theorem c1_list_ignores_short_term :
    (stmCreate [] 1000 "m1" c1in).1.isOk = true ∧
    rget (stmCreate [] 1000 "m1" c1in).2 (buildMemoryKey uidA "m1") ≠ none ∧
    listMemories ⟨(stmCreate [] 1000 "m1" c1in).2, []⟩ uidA ⟨none, none, none, none⟩
      = .ok { items := [], totalCount := 0, hasNextPage := false,
              hasPreviousPage := false, startCursor := none, endCursor := none } := by
  decide

/-! ### Claim C2 — quota check-then-insert race -/

/-- C2: the claim requires the quota re-check to read through the
transaction's own context so that two concurrent calls cannot jointly exceed
the limit; but `checkQuota` counts through the service's shared
non-transactional client (and `create` uses no transaction at all), so the
interleaving "read₁, read₂, insert₁, insert₂" is reachable.  With the quota
at 1 and an empty table, both calls pass the check and the final long-term
count for the tenant is 2 — the state the claim says is impossible. -/
theorem c2_quota_race :
    (quotaRacePair [] uidA c2row1 c2row2 1).1 = (true, true) ∧
    countLongTerm (quotaRacePair [] uidA c2row1 c2row2 1).2 uidA = 2 ∧
    1 < 2 := by
  decide

/-! ### Claim C9 — key builder structure -/

namespace KB

theorem splitOnColon_ne_nil (s : Str) : splitOnColon s ≠ [] := by
  induction s with
  | nil => simp [splitOnColon]
  | cons c cs ih =>
    simp only [splitOnColon]
    split
    · simp
    · split <;> simp

theorem splitOnColon_append (a b : Str) :
    splitOnColon (a ++ ':' :: b) = splitOnColon a ++ splitOnColon b := by
  induction a with
  | nil =>
    show splitOnColon (':' :: b) = [[]] ++ splitOnColon b
    simp only [splitOnColon]
    cases h : splitOnColon b with
    | nil => exact absurd h (splitOnColon_ne_nil b)
    | cons seg rest => simp
  | cons c cs ih =>
    show splitOnColon (c :: (cs ++ ':' :: b)) = splitOnColon (c :: cs) ++ splitOnColon b
    simp only [splitOnColon, ih]
    cases h : splitOnColon cs with
    | nil => exact absurd h (splitOnColon_ne_nil cs)
    | cons seg rest => by_cases hc : c = ':' <;> simp [hc]

theorem splitOnColon_colonFree {s : Str} (h : colonFree s) : splitOnColon s = [s] := by
  induction s with
  | nil => simp [splitOnColon]
  | cons c cs ih =>
    have hc : c ≠ ':' := h c (List.mem_cons_self c cs)
    have hcs : colonFree cs := fun x hx => h x (List.mem_cons_of_mem c hx)
    simp [splitOnColon, ih hcs, hc]

theorem get?_append_pair {α : Type} (P : List α) (a b : α) :
    (P ++ [a, b]).get? P.length = some a := by
  induction P with
  | nil => rfl
  | cons x xs ih => simpa using ih

theorem getLast?_append_pair {α : Type} (P : List α) (a b : α) :
    (P ++ [a, b]).getLast? = some b := by
  have h : P ++ [a, b] = (P ++ [a]) ++ [b] := by simp
  rw [h, List.getLast?_concat]

/-- The two extract functions invert `buildMemoryKey` on colon-free,
non-empty ids. -/
theorem extract_inverts (u i : Str) (hu : colonFree u) (hi : colonFree i)
    (hun : u ≠ []) (hin : i ≠ []) :
    extractUserId (buildMemoryKey u i) = some u ∧
    extractMemoryId (buildMemoryKey u i) = some i := by
  have hkey : splitOnColon (buildMemoryKey u i) = splitOnColon stmPfx ++ [u, i] := by
    rw [buildMemoryKey, splitOnColon_append, splitOnColon_append,
        splitOnColon_colonFree hu, splitOnColon_colonFree hi]
    simp
  have hiempty : i.isEmpty = false := by
    cases i with
    | nil => exact absurd rfl hin
    | cons _ _ => rfl
  have huempty : u.isEmpty = false := by
    cases u with
    | nil => exact absurd rfl hun
    | cons _ _ => rfl
  constructor
  · simp only [extractUserId, hkey]
    have hlen : (splitOnColon stmPfx ++ [u, i]).length
        = (splitOnColon stmPfx).length + 2 := by simp
    rw [hlen]
    rw [if_neg (by omega)]
    have hidx : (splitOnColon stmPfx).length + 2 - 2 = (splitOnColon stmPfx).length := by
      omega
    rw [hidx, get?_append_pair]
    simp [huempty]
  · simp only [extractMemoryId, hkey]
    rw [getLast?_append_pair]
    simp [hiempty]

theorem globSafe_append {a b : Str} (ha : globSafe a) (hb : globSafe b) :
    globSafe (a ++ b) := by
  intro c hc
  rcases List.mem_append.mp hc with h | h
  · exact ha c h
  · exact hb c h

theorem globSafe_cons {c : Char} {s : Str}
    (hc : c ≠ '*' ∧ c ≠ '?' ∧ c ≠ '[' ∧ c ≠ '\\') (hs : globSafe s) :
    globSafe (c :: s) := by
  intro d hd
  rcases List.mem_cons.mp hd with h | h
  · subst h; exact hc
  · exact hs d h

theorem globMatch_star (s : Str) : globMatch ['*'] s = true := by
  induction s with
  | nil => simp [globMatch]
  | cons c cs ih => simp [globMatch, ih]

theorem globMatch_lit_star : ∀ (l : Str), globSafe l → ∀ (k : Str),
    globMatch (l ++ ['*']) k = startsWithLit l k := by
  intro l
  induction l with
  | nil =>
    intro _ k
    simp [startsWithLit, globMatch_star]
  | cons p ps ih =>
    intro hl k
    have hp := hl p (List.mem_cons_self p ps)
    have hps : globSafe ps := fun x hx => hl x (List.mem_cons_of_mem p hx)
    cases k with
    | nil =>
      simp only [List.cons_append, globMatch, startsWithLit]
      simp [hp.1]
    | cons c cs =>
      simp only [List.cons_append, globMatch, startsWithLit]
      rw [if_neg hp.1, if_neg hp.2.1, ih hps cs]

theorem startsWithLit_append (l t : Str) : startsWithLit l (l ++ t) = true := by
  induction l with
  | nil => rfl
  | cons c cs ih => simp [startsWithLit, ih]

theorem startsWithLit_exists {l k : Str} (h : startsWithLit l k = true) :
    ∃ t, k = l ++ t := by
  induction l generalizing k with
  | nil => exact ⟨k, rfl⟩
  | cons c cs ih =>
    cases k with
    | nil => simp [startsWithLit] at h
    | cons d ds =>
      simp only [startsWithLit, Bool.and_eq_true] at h
      obtain ⟨hcd, hrest⟩ := h
      have hc : c = d := by simpa using hcd
      obtain ⟨t, ht⟩ := ih hrest
      exact ⟨t, by simp [hc, ht]⟩

/-- The tenant pattern is the key's literal tenant-scoped part followed by a
single `*`. -/
theorem pattern_eq (u : Str) :
    buildUserPattern u = (stmPfx ++ (':' :: (u ++ [':']))) ++ ['*'] := by
  simp [buildUserPattern, List.append_assoc]

/-- A full key is the key's literal tenant-scoped part followed by the entry
id. -/
theorem key_decomp (u j : Str) :
    buildMemoryKey u j = (stmPfx ++ (':' :: (u ++ [':']))) ++ j := by
  simp [buildMemoryKey, List.append_assoc]

theorem litSafe (u : Str) (hug : globSafe u) :
    globSafe (stmPfx ++ (':' :: (u ++ [':']))) := by
  have hp : globSafe stmPfx := by decide
  have hcolon : globSafe [':'] := by decide
  exact globSafe_append hp (globSafe_cons (by decide) (globSafe_append hug hcolon))

/-- Two keys with colon-free tenant ids agree on the tenant id as soon as
they are equal, whatever their id parts are. -/
theorem key_eq_userId_eq {u u' t t' : Str} (hu : colonFree u) (hu' : colonFree u')
    (h : buildMemoryKey u t = buildMemoryKey u' t') : u = u' := by
  simp only [buildMemoryKey] at h
  have h1 := List.append_cancel_left h
  have h2 : u ++ ':' :: t = u' ++ ':' :: t' := by injection h1
  have h3 := congrArg splitOnColon h2
  rw [splitOnColon_append, splitOnColon_append,
      splitOnColon_colonFree hu, splitOnColon_colonFree hu'] at h3
  have h4 : u :: splitOnColon t = u' :: splitOnColon t' := by simpa using h3
  injection h4

end KB

/-- C9 counterexample: the claim quantifies over arbitrary non-empty ids,
but the delimiter may occur inside an id, so `entryKey` is not injective
there: tenant `"a:b"` with entry `"c"` and tenant `"a"` with entry `"b:c"`
produce the same cache key. -/
theorem c9_counterexample :
    KB.buildMemoryKey "a:b".toList "c".toList
      = KB.buildMemoryKey "a".toList "b:c".toList ∧
    ("a:b".toList, "c".toList) ≠ ("a".toList, "b:c".toList) := by
  decide

/-- C9 (amended, restricted to ids that contain neither the `:` delimiter
nor a glob metacharacter, as the validated cuid/uuid ids do): `buildMemoryKey`
is injective, `extractUserId`/`extractMemoryId` recover the tenant and entry
id from the key, and `buildUserPattern u` matches exactly the keys built for
tenant `u` — every key `buildMemoryKey u j`, only keys of that shape, and
never a key built for a different tenant. -/
theorem c9_keybuilder_props (u i u' i' : KB.Str)
    (hu : KB.colonFree u) (hi : KB.colonFree i)
    (hu' : KB.colonFree u') (hi' : KB.colonFree i')
    (hun : u ≠ []) (hin : i ≠ []) (hun' : u' ≠ []) (hin' : i' ≠ [])
    (hug : KB.globSafe u) :
    KB.extractUserId (KB.buildMemoryKey u i) = some u ∧
    KB.extractMemoryId (KB.buildMemoryKey u i) = some i ∧
    (KB.buildMemoryKey u i = KB.buildMemoryKey u' i' → u = u' ∧ i = i') ∧
    (∀ j : KB.Str, KB.globMatch (KB.buildUserPattern u) (KB.buildMemoryKey u j) = true) ∧
    (∀ k : KB.Str, KB.globMatch (KB.buildUserPattern u) k = true →
      ∃ j, k = KB.buildMemoryKey u j) ∧
    (u ≠ u' → KB.globMatch (KB.buildUserPattern u) (KB.buildMemoryKey u' i') = false) := by
  obtain ⟨e1, e2⟩ := KB.extract_inverts u i hu hi hun hin
  obtain ⟨e1', e2'⟩ := KB.extract_inverts u' i' hu' hi' hun' hin'
  have hlit := KB.litSafe u hug
  refine ⟨e1, e2, ?_, ?_, ?_, ?_⟩
  · intro heq
    rw [heq] at e1 e2
    exact ⟨Option.some.inj (e1.symm.trans e1'), Option.some.inj (e2.symm.trans e2')⟩
  · intro j
    rw [KB.pattern_eq, KB.key_decomp, KB.globMatch_lit_star _ hlit]
    exact KB.startsWithLit_append _ _
  · intro k hk
    rw [KB.pattern_eq, KB.globMatch_lit_star _ hlit] at hk
    obtain ⟨t, ht⟩ := KB.startsWithLit_exists hk
    exact ⟨t, by rw [KB.key_decomp]; exact ht⟩
  · intro hne
    rcases Bool.eq_false_or_eq_true
        (KB.globMatch (KB.buildUserPattern u) (KB.buildMemoryKey u' i')) with h | h
    · exfalso
      rw [KB.pattern_eq, KB.globMatch_lit_star _ hlit] at h
      obtain ⟨t, ht⟩ := KB.startsWithLit_exists h
      have hkeys : KB.buildMemoryKey u' i' = KB.buildMemoryKey u t := by
        rw [KB.key_decomp u t]; exact ht
      exact hne (KB.key_eq_userId_eq hu' hu hkeys).symm
    · exact h

/-- C9 witness: the amended theorem applied at concrete colon-free ids. -/
theorem c9_keybuilder_props_witness :
    KB.extractUserId (KB.buildMemoryKey "abc".toList "def".toList)
      = some "abc".toList ∧
    KB.extractMemoryId (KB.buildMemoryKey "abc".toList "def".toList)
      = some "def".toList ∧
    KB.globMatch (KB.buildUserPattern "abc".toList)
      (KB.buildMemoryKey "abc".toList "xyz".toList) = true ∧
    KB.globMatch (KB.buildUserPattern "abc".toList)
      (KB.buildMemoryKey "abd".toList "def".toList) = false :=
  have h := c9_keybuilder_props "abc".toList "def".toList "abd".toList "def".toList
    (by decide) (by decide) (by decide) (by decide)
    (by decide) (by decide) (by decide) (by decide) (by decide)
  ⟨h.1, h.2.1, h.2.2.2.1 "xyz".toList, h.2.2.2.2.2 (by decide)⟩

end Engram
